import Mathlib

/-!
Verification development for the control playground repository
(engine: transfer functions, state-space models, compound systems,
simulation; interpreter: evaluator over the mini DSL).

Modelling conventions:
* `f64` values are modelled as `ℚ`.  All arithmetic appearing in the
  verified claims is exact dyadic/rational arithmetic, so rational
  semantics coincides with the double-precision semantics on the
  concrete inputs used, and it gives the intended real-number reading
  of the algebraic claims.
* Rust `panic!` / `.expect(..)` in constructors is modelled by an
  `Option`/`Except` failure of the surrounding operation.  Comments at
  each site say which panic is meant.
* Display/formatting strings (Rust `fmt::Display`) are abstracted by
  simple rendering functions; no verified claim observes their text.
* `nalgebra`/`ndarray` dense matrices are modelled by `Mat` below
  (row-major list of rows together with the two dimensions, which
  `ndarray` keeps even when one of them is zero).
-/

/-- Dot product of two coefficient lists (`ndarray`/`nalgebra` `dot`
on equal-length vectors; the embedding truncates at the shorter list,
which is only ever exercised at equal lengths in the claims). -/
def dot (xs ys : List ℚ) : ℚ :=
  (List.zipWith (· * ·) xs ys).sum

/-- Dense real matrix: dimensions plus row-major entries.  `ndarray`'s
`Array2` keeps both dimensions even when `nrows = 0` or `ncols = 0`,
hence the explicit fields. -/
structure Mat where
  nrows : ℕ
  ncols : ℕ
  entries : List (List ℚ)
deriving DecidableEq, Repr

/-- `Array2::zeros((r, c))`. -/
def Mat.zeros (r c : ℕ) : Mat :=
  ⟨r, c, List.replicate r (List.replicate c 0)⟩

/-- Entry `m[(i, j)]`, defaulting to `0` out of range (in the source an
out-of-range access would panic; claims only read in-range entries). -/
def Mat.get (m : Mat) (i j : ℕ) : ℚ :=
  (m.entries.getD i []).getD j 0

/-- Matrix–vector product `m.dot(&v)`. -/
def matVec (m : Mat) (v : List ℚ) : List ℚ :=
  m.entries.map (fun row => dot row v)

/-- `ndarray::Slice { start, end, step }`.  In this program every slice
has a concrete non-negative start and (`Some`) end, so both are `ℕ`;
`step` is signed (`isize`). -/
structure Slice where
  start : ℕ
  stop : ℕ
  step : ℤ
deriving DecidableEq, Repr

/-- The list of buffer indices a 1-D slice selects, following
`ndarray`'s `do_slice`: with `m = stop - start` elements in range and
`s = |step|`, the view has `len = ⌈m/s⌉ = (m-1)/s + 1` elements; for a
positive step the offset is `start` and the indices are
`start, start+s, …`; for a negative step the offset is the *last*
element of the range, `stop - 1`, and the traversal steps downward by
`s`.  (`step = 0` would panic in `ndarray`; it is never produced
here.) -/
def sliceIndices (sl : Slice) : List ℕ :=
  let m := sl.stop - sl.start
  if m = 0 then []
  else
    let s := sl.step.natAbs
    let len := (m - 1) / s + 1
    if 0 ≤ sl.step then
      (List.range len).map (fun k => sl.start + k * s)
    else
      (List.range len).map (fun k => sl.stop - 1 - k * s)

/-- Write `vals` into `buf` at the positions `idxs` (the effect of
`buf.slice_mut(s![sl]).assign(&vals)` once the slice is resolved to its
index list). -/
def writeSlice (buf : List ℚ) : List ℕ → List ℚ → List ℚ
  | i :: is, v :: vs => writeSlice (buf.set i v) is vs
  | _, _ => buf

/-- Read the slice positions `idxs` out of `buf`
(`buf.slice(s![sl])` as a list of scalars). -/
def readSlice (buf : List ℚ) (idxs : List ℕ) : List ℚ :=
  idxs.map (fun i => buf.getD i 0)

/-!  ## Discrete state-space model (src/engine/src/state_space.rs)

The source stores the four blocks packed in one `(n+r) × (n+m)` array
`data` with `a()/b()/c()/d()` views recovering exactly the blocks that
`new` packed; the embedding keeps the four blocks directly, which is
observationally the same through those views. -/

structure DiscreteStateSpaceModel where
  a : Mat
  b : Mat
  c : Mat
  d : Mat
deriving DecidableEq, Repr

instance : Inhabited DiscreteStateSpaceModel :=
  ⟨⟨Mat.zeros 0 0, Mat.zeros 0 0, Mat.zeros 0 0, Mat.zeros 0 0⟩⟩

/-- `DiscreteStateSpaceModel::new`: validates the shape
cross-consistency (`n = a.nrows`, `m = b.ncols`, `r = c.nrows`,
`a.ncols = n`, `b.nrows = n`, `c.ncols = n`, `d.ncols = m`,
`d.nrows = r`) and panics on mismatch (modelled as `none`). -/
def DiscreteStateSpaceModel.new (a b c d : Mat) : Option DiscreteStateSpaceModel :=
  let n := a.nrows
  let m := b.ncols
  let r := c.nrows
  if a.ncols ≠ n ∨ b.nrows ≠ n ∨ c.ncols ≠ n ∨ d.ncols ≠ m ∨ d.nrows ≠ r then
    none
  else
    some ⟨a, b, c, d⟩

/-- `state_size`: `n`. -/
def DiscreteStateSpaceModel.state_size (sys : DiscreteStateSpaceModel) : ℕ :=
  sys.a.nrows

/-- `input_size`: `data.ncols() - n = m`. -/
def DiscreteStateSpaceModel.input_size (sys : DiscreteStateSpaceModel) : ℕ :=
  sys.b.ncols

/-- `output_size`: `data.nrows() - n = r`. -/
def DiscreteStateSpaceModel.output_size (sys : DiscreteStateSpaceModel) : ℕ :=
  sys.c.nrows

/-- `has_feedthrough`: some entry of `D` is nonzero. -/
def DiscreteStateSpaceModel.has_feedthrough (sys : DiscreteStateSpaceModel) : Bool :=
  sys.d.entries.any (fun row => row.any (fun x => decide (x ≠ 0)))

/-- `update_state`: the new state `B·input + A·state` (assigned back
into the state slice by the caller). -/
def DiscreteStateSpaceModel.update_state (sys : DiscreteStateSpaceModel)
    (input state : List ℚ) : List ℚ :=
  List.zipWith (· + ·) (matVec sys.b input) (matVec sys.a state)

/-- `calculate_output` as written in src/engine/src/state_space.rs:
`output = C·state + D·input`.  (Note: it takes the block input and adds
the feedthrough term.) -/
def DiscreteStateSpaceModel.calculate_output (sys : DiscreteStateSpaceModel)
    (input state : List ℚ) : List ℚ :=
  List.zipWith (· + ·) (matVec sys.c state) (matVec sys.d input)

/-!  ## Discrete transfer function (src/engine/src/transfer_function.rs) -/

structure DiscreteTransferFunction where
  num : List ℚ
  den : List ℚ
deriving DecidableEq, Repr

/-- `DiscreteTransferFunction::new`: `None` if either sequence is
empty; otherwise the shorter sequence is padded with zeros inserted at
index 0 (`insert_rows(0, …)`, i.e. *leading* zeros) until the lengths
agree. -/
def DiscreteTransferFunction.new (num den : List ℚ) : Option DiscreteTransferFunction :=
  if num = [] ∨ den = [] then none
  else
    let numlen := num.length
    let denlen := den.length
    let num := if numlen < denlen then List.replicate (denlen - numlen) 0 ++ num else num
    let den := if denlen < numlen then List.replicate (numlen - denlen) 0 ++ den else den
    some ⟨num, den⟩

/-- Pointwise add the second list into a prefix of the first, keeping
the length of the first (`c.iter_mut().zip(ys).for_each(|(el, y)| *el += y)`:
`zip` stops at the shorter of the two). -/
def addInto : List ℚ → List ℚ → List ℚ
  | xs, [] => xs
  | [], _ => []
  | x :: xs, y :: ys => (x + y) :: addInto xs ys

/-- `convert_to_state_space` (controllable-canonical form): `None` when
`den[0] = 0`; otherwise with `d0 = den[0]`, `order = den.len() - 1`,
`n0 = num[0]`:
* `A` is `order × order`, row 0 is `(-den[i]/d0)` for `i = 1..=order`,
  the sub-diagonal from row 1 on is 1, the rest 0;
* `B` is `order × 1` with `B[0,0] = 1`;
* `C` starts as `(-den[i]/d0 * n0/d0)` for `i = 1..=order` and then has
  `num[i]/d0` added into its prefix of length `num.len() - 1`;
* `D = [[n0/d0]]`.
(The source reads `den[0]`/`num[0]` by index, panicking on an empty
vector; the construction invariant keeps both non-empty, and the
embedding reads them with default `0`.) -/
def DiscreteTransferFunction.convert_to_state_space
    (tf : DiscreteTransferFunction) : Option DiscreteStateSpaceModel :=
  let d0 := tf.den.getD 0 0
  if d0 = 0 then none
  else
    let order := tf.den.length - 1
    let n0 := tf.num.getD 0 0
    let row0 := (tf.den.drop 1).map (fun di => -di / d0)
    let a : Mat :=
      ⟨order, order,
        (List.range order).map (fun i =>
          if i = 0 then row0
          else (List.range order).map (fun j => if j = i - 1 then (1 : ℚ) else 0))⟩
    let b : Mat := ⟨order, 1, (List.range order).map (fun i => [if i = 0 then (1 : ℚ) else 0])⟩
    let c0 := (tf.den.drop 1).map (fun di => -di / d0 * n0 / d0)
    let cRow := addInto c0 ((tf.num.drop 1).map (fun ni => ni / d0))
    let c : Mat := ⟨1, order, [cRow]⟩
    let d : Mat := ⟨1, 1, [[n0 / d0]]⟩
    some ⟨a, b, c, d⟩

/-!  ## Compound system (src/engine/src/dynamic_system.rs) -/

inductive SystemBlock where
  | stateSpace (ss : DiscreteStateSpaceModel)
  | transferFunction (tf : DiscreteTransferFunction)
  | difference
deriving DecidableEq, Repr

inductive Signal where
  | systemInput
  | componentOutput (i : ℕ)
deriving DecidableEq, Repr

structure CompoundSystemComponent where
  block : SystemBlock
  name : String
  reads_input_from : List Signal
deriving DecidableEq, Repr

structure CompoundSystem where
  components : List CompoundSystemComponent
deriving DecidableEq, Repr

structure CompoundSystemComponentDefinition where
  block : SystemBlock
  name : String
  reads_input_from : List String
deriving DecidableEq, Repr

/-- First phase of `CompoundSystem::new`: insert every component's
output name into the symbol table (seeded with `u ↦ SystemInput`),
erroring on a name that is already bound.  The table is an association
list with newest binding first (lookup semantics of the `HashMap`). -/
def insertNames : List CompoundSystemComponentDefinition → ℕ → List (String × Signal) →
    Except String (List (String × Signal))
  | [], _, table => .ok table
  | c :: rest, i, table =>
    if (table.lookup c.name).isSome then .error ("duplicate name " ++ c.name)
    else insertNames rest (i + 1) ((c.name, Signal.componentOutput i) :: table)

/-- Second phase of `CompoundSystem::new`: resolve each input name of
each component against the (complete) symbol table; the first missing
name yields `"signal <name> does not exist"`. -/
def resolveInputs (table : List (String × Signal)) :
    List String → Except String (List Signal)
  | [] => .ok []
  | s :: rest =>
    match table.lookup s with
    | none => .error ("signal " ++ s ++ " does not exist")
    | some sig =>
      match resolveInputs table rest with
      | .error e => .error e
      | .ok sigs => .ok (sig :: sigs)

/-- Resolve all components, first error wins (the `collect::<Result<_,_>>`). -/
def resolveComponents (table : List (String × Signal)) :
    List CompoundSystemComponentDefinition → Except String (List CompoundSystemComponent)
  | [] => .ok []
  | c :: rest =>
    match resolveInputs table c.reads_input_from with
    | .error e => .error e
    | .ok sigs =>
      match resolveComponents table rest with
      | .error e => .error e
      | .ok comps => .ok (⟨c.block, c.name, sigs⟩ :: comps)

/-- `CompoundSystem::new`: name resolution in two passes — *all* output
names are registered (after the duplicate check) before any input name
is resolved, so inputs may refer to components defined later in the
list. -/
def CompoundSystem.new (components : List CompoundSystemComponentDefinition) :
    Except String CompoundSystem :=
  match insertNames components 0 [("u", Signal.systemInput)] with
  | .error e => .error e
  | .ok table =>
    match resolveComponents table components with
    | .error e => .error e
    | .ok comps => .ok ⟨comps⟩

/-!  ## Simulation (src/engine/src/dynamic_system.rs, `Simulation`) -/

structure SimulationBlock where
  executable : DiscreteStateSpaceModel
  input_signal_mapping : Slice
  state_mapping : Slice
  output_signal_mapping : Slice
deriving DecidableEq, Repr

instance : Inhabited SimulationBlock :=
  ⟨⟨default, ⟨0, 0, 1⟩, ⟨0, 0, 1⟩, ⟨0, 0, 1⟩⟩⟩

inductive ExecutionStep where
  | calculateOutput (system_id : ℕ)
  | calculateOutputWithFeedthrough (system_id : ℕ)
  | updateState (system_id : ℕ)
deriving DecidableEq, Repr

structure Simulation where
  blocks : List SimulationBlock
  execution_plan : List ExecutionStep
  input_signal_mapping : Slice
  output_signal_mapping : ℕ
  state_size : ℕ
  signals_size : ℕ
deriving Repr

/-- The executable state-space model of a component block
(the `match &component.block` in `Simulation::new`): a state-space
block is used as is, a transfer function is converted (conversion
failure aborts planning), and `Difference` becomes the fixed stateless
block with `D = [[1, -1]]`. -/
def SystemBlock.toExecutable : SystemBlock → Option DiscreteStateSpaceModel
  | .stateSpace ss => some ss
  | .transferFunction tf => tf.convert_to_state_space
  | .difference =>
    DiscreteStateSpaceModel.new (Mat.zeros 0 0) (Mat.zeros 0 2) (Mat.zeros 1 0) ⟨1, 2, [[1, -1]]⟩

/-- First loop of `Simulation::new`: allocate, for each component in
order, a contiguous state slice and a contiguous output-signal slice
(the input mapping is a placeholder `0..0` until the second loop). -/
def buildBlocks : List CompoundSystemComponent → ℕ → ℕ →
    Option (List SimulationBlock × ℕ × ℕ)
  | [], signalsSize, stateSize => some ([], signalsSize, stateSize)
  | comp :: rest, signalsSize, stateSize =>
    match comp.block.toExecutable with
    | none => none
    | some exe =>
      let block : SimulationBlock :=
        ⟨exe, ⟨0, 0, 1⟩,
          ⟨stateSize, stateSize + exe.state_size, 1⟩,
          ⟨signalsSize, signalsSize + exe.output_size, 1⟩⟩
      match buildBlocks rest (signalsSize + exe.output_size) (stateSize + exe.state_size) with
      | none => none
      | some (blocks, sig, st) => some (block :: blocks, sig, st)

/-- Resolve one input signal to its slice: the external-input slice for
`u`, or the producing block's output slice (the index is always in
range by name resolution; out of range would panic in the source). -/
def resolveSignalSlice (inputMapping : Slice) (blocks : List SimulationBlock) :
    Signal → Slice
  | .systemInput => inputMapping
  | .componentOutput i => ((blocks.get? i).map SimulationBlock.output_signal_mapping).getD ⟨0, 0, 1⟩

/-- Second loop of `Simulation::new`: compute a component's input
mapping.  One input maps to the upstream slice; two inputs (both
required to be size-1 signals, else the source panics `"can only
subtract two signals of size 1"`, modelled as `none`) map to the
two-element strided slice `Slice::new(min, Some(max+1), start2 - start1)`;
any other arity panics (`none`). -/
def computeInputMapping (inputMapping : Slice) (blocks : List SimulationBlock) :
    List Signal → Option Slice
  | [input] => some (resolveSignalSlice inputMapping blocks input)
  | [input1, input2] =>
    let s1 := resolveSignalSlice inputMapping blocks input1
    let s2 := resolveSignalSlice inputMapping blocks input2
    if s1.start + 1 ≠ s1.stop ∨ s2.start + 1 ≠ s2.stop then none
    else
      some ⟨min s1.start s2.start, max s1.start s2.start + 1, (s2.start : ℤ) - (s1.start : ℤ)⟩
  | _ => none

/-- Assign every block its computed input mapping (the second loop
writes `blocks[i].input_signal_mapping`; `allBlocks` carries the full
first-pass list used to resolve producer slices, also for producers
occurring later in the list). -/
def assignInputs (inputMapping : Slice) (allBlocks : List SimulationBlock) :
    List SimulationBlock → List CompoundSystemComponent → Option (List SimulationBlock)
  | [], [] => some []
  | b :: bs, c :: cs =>
    match computeInputMapping inputMapping allBlocks c.reads_input_from with
    | none => none
    | some sl =>
      match assignInputs inputMapping allBlocks bs cs with
      | none => none
      | some rest => some ({ b with input_signal_mapping := sl } :: rest)
  | _, _ => none

/-- `Simulation::new`: plan the simulation.  The signal buffer is laid
out `[u | block0 outputs | block1 outputs | …]`, the state buffer
`[block0 state | block1 state | …]`.  The static schedule first
computes every block's outputs in definition order (with feedthrough
when `D ≠ 0`, skipping blocks with no outputs), then updates every
block's state in definition order (skipping stateless blocks).  The
output signal is the last signal slot, `signals_size - 1`.  (The
source also fills a `dependencies` vector, but it is only read by the
commented-out topological sort, so it has no observable effect and is
omitted.) -/
def Simulation.new (system : CompoundSystem) : Option Simulation :=
  let input_signal_mapping : Slice := ⟨0, 1, 1⟩
  match buildBlocks system.components 1 0 with
  | none => none
  | some (blocks0, signals_size, state_size) =>
    match assignInputs input_signal_mapping blocks0 blocks0 system.components with
    | none => none
    | some blocks =>
      let plan1 := blocks.enum.filterMap (fun p =>
        if p.2.executable.has_feedthrough then
          some (ExecutionStep.calculateOutputWithFeedthrough p.1)
        else if 0 < p.2.executable.output_size then
          some (ExecutionStep.calculateOutput p.1)
        else none)
      let plan2 := blocks.enum.filterMap (fun p =>
        if 0 < p.2.executable.state_size then some (ExecutionStep.updateState p.1) else none)
      some ⟨blocks, plan1 ++ plan2, input_signal_mapping, signals_size - 1,
        state_size, signals_size⟩

/-- One step of the execution plan, acting on `(signals, states)`.
`CalculateOutput` writes `C·state` into the block's output slice.
Modelled from the spec: the engine method called here
(`calculate_output(state, out)`, taking no input) is absent from the
`src` snapshot of `state_space.rs` — only its caller is present — and
§4.4 of the spec fixes its semantics as `C·state_i` into `out_i`;
it is only ever scheduled for blocks with `D = 0`, where it agrees with
`calculate_output` of src/engine/src/state_space.rs at zero input.
`CalculateOutputWithFeedthrough` writes `C·state + D·input` (the
`calculate_output` of src/engine/src/state_space.rs), and `UpdateState`
writes `A·state + B·input` back into the state slice. -/
def Simulation.applyStep (sim : Simulation) (bufs : List ℚ × List ℚ) :
    ExecutionStep → List ℚ × List ℚ
  | .calculateOutput id =>
    let block := sim.blocks.getD id default
    let state := readSlice bufs.2 (sliceIndices block.state_mapping)
    let out := matVec block.executable.c state
    (writeSlice bufs.1 (sliceIndices block.output_signal_mapping) out, bufs.2)
  | .calculateOutputWithFeedthrough id =>
    let block := sim.blocks.getD id default
    let input := readSlice bufs.1 (sliceIndices block.input_signal_mapping)
    let state := readSlice bufs.2 (sliceIndices block.state_mapping)
    let out := block.executable.calculate_output input state
    (writeSlice bufs.1 (sliceIndices block.output_signal_mapping) out, bufs.2)
  | .updateState id =>
    let block := sim.blocks.getD id default
    let input := readSlice bufs.1 (sliceIndices block.input_signal_mapping)
    let state := readSlice bufs.2 (sliceIndices block.state_mapping)
    (bufs.1, writeSlice bufs.2 (sliceIndices block.state_mapping)
      (block.executable.update_state input state))

/-- The per-cycle loop of `Simulation::execute`: write `u = 1.0` into
the external-input slice, run the schedule, and read the scalar at the
output slot; `n` cycles produce `n` output samples in order. -/
def Simulation.runCycles (sim : Simulation) : ℕ → List ℚ → List ℚ → List ℚ
  | 0, _, _ => []
  | n + 1, signals, states =>
    let signals := writeSlice signals (sliceIndices sim.input_signal_mapping) [1]
    let res := sim.execution_plan.foldl sim.applyStep (signals, states)
    res.1.getD sim.output_signal_mapping 0 :: sim.runCycles n res.1 res.2

/-- `Simulation::execute`: zero-initialised state and signal buffers,
`steps = 35` and an inclusive loop `0..=steps`, hence 36 samples. -/
def Simulation.execute (sim : Simulation) : List ℚ :=
  sim.runCycles 36 (List.replicate sim.signals_size 0) (List.replicate sim.state_size 0)

/-!  ## Interpreter (src/interpreter/src/execution.rs) -/

inductive InterpError where
  | io
  | nullDeref (name : String)
  | unknownFunction (name : String)
  | typeError
  | incorrectNumberOfArguments (expected got : ℕ)
  | other (msg : String)
deriving DecidableEq, Repr

inductive BuiltInFunction where
  | load
  | transferFunction
  | tf2ss
  | step
deriving DecidableEq, Repr

inductive Value where
  | string (s : String)
  | float (f : ℚ)
  | vector (v : List ℚ)
  | matrix (m : Mat)
  | builtInFunction (f : BuiltInFunction)
  | transferFunction (tf : DiscreteTransferFunction)
  | stateSpaceModel (ss : DiscreteStateSpaceModel)
  | compoundSystem (cs : CompoundSystem)
deriving DecidableEq, Repr

inductive Output where
  | err (e : InterpError)
  | text (s : String)
  | plot (m : Mat)
  | system (cs : CompoundSystem)
deriving DecidableEq, Repr

/-- Placeholder for the Rust `Display` renderings (float, vector,
transfer-function and state-space pretty printing).  No verified claim
observes these strings, so the `Repr`-derived text stands in for the
Rust formatting. -/
def renderValue (v : Value) : String :=
  reprStr v

/-- `Output` projection of a `Value` (`impl From<&Value> for Output`):
strings, floats, vectors, built-ins, transfer functions and state-space
models render textually, matrices become plots, compound systems become
system diagrams. -/
def Output.ofValue : Value → Output
  | .string s => .text s
  | .vector v => .text (renderValue (.vector v))
  | .matrix m => .plot m
  | .float f => .text (renderValue (.float f))
  | .builtInFunction _ => .text "<builtin_function>"
  | .transferFunction tf => .text (renderValue (.transferFunction tf))
  | .stateSpaceModel ss => .text (renderValue (.stateSpaceModel ss))
  | .compoundSystem cs => .system cs

/-- `Value::get_system`: only transfer-function and state-space values
can stand as a component block; anything else (including a compound
system) is a `TypeError`. -/
def Value.get_system : Value → Except InterpError SystemBlock
  | .transferFunction tf => .ok (SystemBlock.transferFunction tf)
  | .stateSpaceModel ss => .ok (SystemBlock.stateSpace ss)
  | _ => .error .typeError

/-!  ### AST (src/interpreter/src/ast.rs) -/

inductive UnOp where
  | neg
deriving DecidableEq, Repr

inductive BinOp where
  | add
  | sub
  | mul
  | div
deriving DecidableEq, Repr

inductive SystemItemRhs where
  | difference (input1_name input2_name : String)
  | system (system_name input_name : String)
deriving DecidableEq, Repr

structure SystemItem where
  output_name : String
  rhs : SystemItemRhs
deriving DecidableEq, Repr

inductive Expression where
  | identifier (id : String)
  | stringLiteral (s : String)
  | floatLiteral (f : ℚ)
  | vectorLiteral (elements : List Expression)
  | unOp (op : UnOp) (e : Expression)
  | binOp (op : BinOp) (e1 e2 : Expression)
  | functionCall (function : Expression) (arguments : List Expression)
  | system (items : List SystemItem)
deriving Repr

inductive Statement where
  | expressionStatement (e : Expression)
  | assign (id : String) (e : Expression)
deriving Repr

structure Program where
  statements : List Statement
deriving Repr

/-- The evaluation environment: name-to-value bindings.  `HashMap`
insert-overwrites are modelled by prepending, with `List.lookup`
returning the newest binding. -/
abbrev EnvMap := List (String × Value)

/-- The host port `Env::read_file` composed with the `csv` crate's
record reader and the per-field `f64` parse: the external text decoding
is abstracted away, so the port directly yields the parsed numeric
records of the named file (`none` when the file cannot be read).
Unparseable text (the `Error while parsing csv` path and the
`.parse().unwrap()` panic) is outside this abstraction and is not
exercised by any claim. -/
abbrev ReadFile := String → Option (List (List ℚ))

/-- `get_default_values()`: the built-in bindings. -/
def defaultValues : EnvMap :=
  [("load", Value.builtInFunction .load),
   ("tf", Value.builtInFunction .transferFunction),
   ("tf2ss", Value.builtInFunction .tf2ss),
   ("step", Value.builtInFunction .step)]

/-- `ndarray`'s `m.push(Axis(0), row)`: appends `row` as a new row,
which requires `row.len()` to equal the current column count; on a
shape mismatch it returns a `ShapeError` (`none` here), which `load`
turns into the `expect("all columns to be of equal length")` panic. -/
def Mat.pushRow (m : Mat) (row : List ℚ) : Option Mat :=
  if row.length = m.ncols then some ⟨m.nrows + 1, m.ncols, m.entries ++ [row]⟩ else none

/-- The matrix-building loop of the `Load` builtin: start from
`Array2::zeros((0, 0))`, replace it by `Array2::zeros((record.len(), 0))`
at the first record, and `push(Axis(0), record)` every record.
`none` models the `expect` panic on a failed push. -/
def loadMatrixLoop : List (List ℚ) → ℕ → Mat → Option Mat
  | [], _, m => some m
  | record :: rest, i, m =>
    let m := if i = 0 then Mat.zeros record.length 0 else m
    match m.pushRow record with
    | none => none
    | some m => loadMatrixLoop rest (i + 1) m

/-- The `Load` builtin's records-to-matrix conversion. -/
def loadMatrix (records : List (List ℚ)) : Option Mat :=
  loadMatrixLoop records 0 (Mat.zeros 0 0)

/-- The per-item loop of the `System(items)` evaluation: a `Difference`
item contributes the `Difference` block with its two input names; a
`block(in)` item looks the block name up in the environment (missing
name: `NullDeref`; value that is not a transfer function or state-space
model: `TypeError` via `get_system`) — short-circuiting at the first
error. -/
def collectSystemItems (values : EnvMap) :
    List SystemItem → Except InterpError (List CompoundSystemComponentDefinition)
  | [] => .ok []
  | item :: rest =>
    match
      (match item.rhs with
       | .difference input1_name input2_name =>
         Except.ok ([input1_name, input2_name], SystemBlock.difference)
       | .system system_name input_name =>
         match values.lookup system_name with
         | none => .error (InterpError.nullDeref system_name)
         | some v =>
           match v.get_system with
           | .error e => .error e
           | .ok blk => .ok ([input_name], blk)) with
    | .error e => .error e
    | .ok (inputs, blk) =>
      match collectSystemItems values rest with
      | .error e => .error e
      | .ok defs => .ok (⟨blk, item.output_name, inputs⟩ :: defs)

mutual

/-- `eval`: evaluate an expression to a runtime value.  Follows
src/interpreter/src/execution.rs: identifier lookup (`NullDeref` when
missing, remapped to `UnknownFunction` in callee position), literals,
vector literals of floats, `Neg` and the four float binary operators,
the four built-ins, and `system { … }` expressions.  The source checks
built-in arity with `num_args` before indexing `arguments`; here the
arity check and the indexing are fused into one list pattern match. -/
def eval (expr : Expression) (values : EnvMap) (rf : ReadFile) :
    Except InterpError Value :=
  match expr with
  | .identifier id =>
    match values.lookup id with
    | none => .error (.nullDeref id)
    | some v => .ok v
  | .stringLiteral s => .ok (.string s)
  | .floatLiteral f => .ok (.float f)
  | .vectorLiteral elements =>
    match evalFloats elements values rf with
    | .error e => .error e
    | .ok fs => .ok (.vector fs)
  | .unOp op e =>
    match eval e values rf with
    | .error e => .error e
    | .ok (.float f) =>
      match op with
      | .neg => .ok (.float (-f))
    | .ok _ => .error .typeError
  | .binOp op e1 e2 =>
    match eval e1 values rf with
    | .error e => .error e
    | .ok (.float f1) =>
      match eval e2 values rf with
      | .error e => .error e
      | .ok (.float f2) =>
        match op with
        | .add => .ok (.float (f1 + f2))
        | .sub => .ok (.float (f1 - f2))
        | .mul => .ok (.float (f1 * f2))
        | .div => .ok (.float (f1 / f2))
      | .ok _ => .error .typeError
    | .ok _ => .error .typeError
  | .functionCall function arguments =>
    match
      ((match eval function values rf with
        | .error (.nullDeref id) => .error (.unknownFunction id)
        | .error e => .error e
        | .ok v => Except.ok v) : Except InterpError Value) with
    | .error e => .error e
    | .ok (.builtInFunction fn) =>
      match fn with
      | .load =>
        match arguments with
        | [a1] =>
          match eval a1 values rf with
          | .error e => .error e
          | .ok (.string file_name) =>
            match rf file_name with
            | none => .error (.other ("file " ++ file_name ++ " could not be read"))
            | some records =>
              match loadMatrix records with
              | some m => .ok (.matrix m)
              -- `expect("all columns to be of equal length")` panic:
              | none => .error (.other "panic: all columns to be of equal length")
          | .ok _ => .error .typeError
        | _ => .error (.incorrectNumberOfArguments 1 arguments.length)
      | .transferFunction =>
        match arguments with
        | [a1, a2] =>
          match eval a1 values rf with
          | .error e => .error e
          | .ok (.vector num) =>
            match eval a2 values rf with
            | .error e => .error e
            | .ok (.vector den) =>
              match DiscreteTransferFunction.new num den with
              | none => .error (.other "Could not construct tf")
              | some tf => .ok (.transferFunction tf)
            | .ok _ => .error .typeError
          | .ok _ => .error .typeError
        | _ => .error (.incorrectNumberOfArguments 2 arguments.length)
      | .tf2ss =>
        match arguments with
        | [a1] =>
          match eval a1 values rf with
          | .error e => .error e
          | .ok (.transferFunction tf) =>
            match tf.convert_to_state_space with
            | none => .error (.other "Could not convert to state space")
            | some ss => .ok (.stateSpaceModel ss)
          | .ok _ => .error .typeError
        | _ => .error (.incorrectNumberOfArguments 1 arguments.length)
      | .step =>
        match arguments with
        | [a1] =>
          match eval a1 values rf with
          | .error e => .error e
          | .ok v =>
            match
              (match v with
               | .compoundSystem s => Except.ok s
               | other =>
                 match other.get_system with
                 | .error _ => .error InterpError.typeError
                 | .ok block =>
                   match CompoundSystem.new [⟨block, "", ["u"]⟩] with
                   | .error e => .error (InterpError.other e)
                   | .ok s => .ok s) with
            | .error e => .error e
            | .ok system =>
              match Simulation.new system with
              | none => .error (.other "could not init sim")
              | some sim =>
                let out := sim.execute
                .ok (.matrix ⟨1, out.length, [out]⟩)
        | _ => .error (.incorrectNumberOfArguments 1 arguments.length)
    | .ok _ => .error .typeError
  | .system items =>
    match collectSystemItems values items with
    | .error e => .error e
    | .ok sub_systems =>
      match CompoundSystem.new sub_systems with
      | .error e => .error (.other e)
      | .ok cs => .ok (.compoundSystem cs)

/-- The vector-literal element loop: each element must evaluate to a
float (`TypeError` otherwise), short-circuiting at the first error. -/
def evalFloats (elements : List Expression) (values : EnvMap) (rf : ReadFile) :
    Except InterpError (List ℚ) :=
  match elements with
  | [] => .ok []
  | e :: rest =>
    match eval e values rf with
    | .ok (.float f) =>
      match evalFloats rest values rf with
      | .error e => .error e
      | .ok fs => .ok (f :: fs)
    | .ok _ => .error .typeError
    | .error e => .error e

end

/-- The statement loop of `execute`, additionally returning the final
environment (the source keeps `values` as loop state): expression
statements append their value's `Output` projection (or the error);
assignments bind on success and only append the error on failure. -/
def executeStmts (rf : ReadFile) :
    List Statement → EnvMap → List Output × EnvMap
  | [], values => ([], values)
  | stmt :: rest, values =>
    match stmt with
    | .expressionStatement e =>
      match eval e values rf with
      | .ok v =>
        let res := executeStmts rf rest values
        (Output.ofValue v :: res.1, res.2)
      | .error er =>
        let res := executeStmts rf rest values
        (Output.err er :: res.1, res.2)
    | .assign id e =>
      match eval e values rf with
      | .ok v => executeStmts rf rest ((id, v) :: values)
      | .error er =>
        let res := executeStmts rf rest values
        (Output.err er :: res.1, res.2)

/-- `execute`: run all statements against the default environment and
collect the ordered outputs. -/
def execute (program : Program) (rf : ReadFile) : List Output :=
  (executeStmts rf program.statements defaultValues).1

/-!  ## General helper lemmas -/

theorem Simulation.runCycles_length (sim : Simulation) :
    ∀ (n : ℕ) (signals states : List ℚ), (sim.runCycles n signals states).length = n := by
  intro n
  induction n with
  | zero => intro signals states; rfl
  | succ n ih => intro signals states; simp [Simulation.runCycles, ih]

theorem Simulation.execute_length (sim : Simulation) : sim.execute.length = 36 :=
  sim.runCycles_length 36 _ _

theorem dot_eq_zero (row v : List ℚ) (h : ∀ x ∈ row, x = 0) : dot row v = 0 := by
  induction row generalizing v with
  | nil => cases v <;> simp [dot]
  | cons x xs ih =>
    cases v with
    | nil => simp [dot]
    | cons y ys =>
      have hx : x = 0 := h x (by simp)
      have := ih ys (fun z hz => h z (by simp [hz]))
      simp only [dot, List.zipWith_cons_cons, List.sum_cons] at *
      rw [hx, this]
      ring

theorem zipWith_add_zeros (xs ys : List ℚ) (hlen : ys.length = xs.length)
    (h : ∀ y ∈ ys, y = 0) : List.zipWith (· + ·) xs ys = xs := by
  induction xs generalizing ys with
  | nil => simp
  | cons x xs ih =>
    cases ys with
    | nil => simp at hlen
    | cons y ys =>
      have hy : y = 0 := h y (by simp)
      simp only [List.zipWith_cons_cons]
      rw [hy, add_zero, ih ys (by simpa using hlen) (fun z hz => h z (by simp [hz]))]

set_option maxRecDepth 100000

/-!  ## Claim-specific concrete inputs -/

/-- A `read_file` port with no files. -/
def rf0 : ReadFile := fun _ => none

/-- The two-statement program `a = tf([1], [1, -0.5])` / `step(a)`. -/
def c1Prog : Program :=
  ⟨[.assign "a" (.functionCall (.identifier "tf")
      [.vectorLiteral [.floatLiteral 1],
       .vectorLiteral [.floatLiteral 1, .unOp .neg (.floatLiteral (1/2))]]),
    .expressionStatement (.functionCall (.identifier "step") [.identifier "a"])]⟩

/-!  ## C1 -/

/-- C1 (counterexample).  For `a = tf([1], [1, -0.5]); step(a)` the
single produced output is a plot whose matrix has first entry `0`, not
`1` as the claim states: `tf` pads the numerator with a *leading* zero,
so the simulated system is `z⁻¹/(1 - 0.5 z⁻¹)` and the step response is
delayed by one sample. -/
theorem c1_counterexample :
    (match execute c1Prog rf0 with
     | [Output.plot m] => some (m.get 0 0)
     | _ => none) = some 0 ∧ (0 : ℚ) ≠ 1 := by
  with_unfolding_all decide

/-- C1 (amended).  Evaluating `a = tf([1], [1, -0.5]); step(a)`
produces exactly one output, a plot whose matrix is a 1×36 row, and the
first four entries of that row equal `0, 1, 1.5, 1.75`. -/
theorem c1_amended_output :
    (match execute c1Prog rf0 with
     | [Output.plot m] => some (m.nrows, m.ncols, m.get 0 0, m.get 0 1, m.get 0 2, m.get 0 3)
     | _ => none) = some (1, 36, 0, 1, 3/2, 7/4) := by
  with_unfolding_all decide

/-!  ## C2 -/

/-- C2 (counterexample).  `Construct([1], [1, -1/2])` pads the
numerator to `[0, 1]`, not `[1, 0]`: the zero is prepended (low-delay
end), so the original coefficient `num[0] = 1` moves to the `z⁻¹`
position instead of keeping its place. -/
theorem c2_counterexample :
    (DiscreteTransferFunction.new [1] [1, -(1/2)]).map DiscreteTransferFunction.num =
      some [0, 1] ∧ ([0, 1] : List ℚ) ≠ [1, 0] := by
  with_unfolding_all decide

/-- C2 (amended).  `Construct(num, den)` returns `None` if either
sequence is empty; otherwise it pads the shorter sequence with *leading*
zeros (prepended before its first coefficient, at the low-delay end) so
the lengths agree: `num[i]` becomes the coefficient of
`z^-(i + max(N,M) - N)` rather than staying at `z^-i`. -/
theorem c2_padding (num den : List ℚ) :
    ((num = [] ∨ den = []) → DiscreteTransferFunction.new num den = none) ∧
    (num ≠ [] → den ≠ [] →
      DiscreteTransferFunction.new num den =
        some ⟨List.replicate (max num.length den.length - num.length) 0 ++ num,
              List.replicate (max num.length den.length - den.length) 0 ++ den⟩) := by
  constructor
  · intro h
    simp only [DiscreteTransferFunction.new, if_pos h]
  · intro hn hd
    simp only [DiscreteTransferFunction.new, hn, hd, false_or, if_false]
    by_cases h1 : num.length < den.length
    · have h2 : ¬(den.length < num.length) := by omega
      rw [if_pos h1, if_neg h2, Nat.max_eq_right h1.le]
      simp [Nat.sub_self]
    · by_cases h2 : den.length < num.length
      · rw [if_neg h1, if_pos h2, Nat.max_eq_left h2.le]
        simp [Nat.sub_self]
      · have he : num.length = den.length := by omega
        rw [if_neg h1, if_neg h2, he, Nat.max_self]
        simp [Nat.sub_self]

/-- C2 witness: `Construct([1], [1, 2])` pads the numerator to `[0, 1]`. -/
theorem c2_witness :
    DiscreteTransferFunction.new [1] [1, 2] =
      some ⟨List.replicate (max ([1] : List ℚ).length ([1, 2] : List ℚ).length -
              ([1] : List ℚ).length) 0 ++ [1],
            List.replicate (max ([1] : List ℚ).length ([1, 2] : List ℚ).length -
              ([1, 2] : List ℚ).length) 0 ++ [1, 2]⟩ :=
  (c2_padding [1] [1, 2]).2 (by simp) (by simp)

/-!  ## C6 -/

/-- C6 (counterexample).  `calculate_output` on a stateless block with
`D = [[1]]` and input `[1]` writes `[1]`, while `C·state = [0]`: the
`D` matrix and the input do enter the result. -/
theorem c6_counterexample :
    (DiscreteStateSpaceModel.calculate_output
        ⟨Mat.zeros 0 0, Mat.zeros 0 1, ⟨1, 0, [[]]⟩, ⟨1, 1, [[1]]⟩⟩ [1] []) = [1] ∧
      matVec (⟨1, 0, [[]]⟩ : Mat) ([] : List ℚ) = [0] ∧ ([1] : List ℚ) ≠ [0] := by
  with_unfolding_all decide

/-- C6 (amended).  `calculate_output(input, state, out)` writes
`C·state + D·input`; only when the block has no feedthrough (every
entry of `D` zero — with `C` and `D` having the same row count `r`, as
the packed representation guarantees) does it reduce to `C·state`,
with `D` and the input playing no role. -/
theorem c6_output_no_feedthrough (sys : DiscreteStateSpaceModel) (input state : List ℚ)
    (hlen : sys.d.entries.length = sys.c.entries.length)
    (hnf : sys.has_feedthrough = false) :
    sys.calculate_output input state = matVec sys.c state := by
  have hall : ∀ row ∈ sys.d.entries, ∀ x ∈ row, x = 0 := by
    intro row hrow x hx
    by_contra hne
    have : sys.has_feedthrough = true := by
      simp only [DiscreteStateSpaceModel.has_feedthrough, List.any_eq_true]
      exact ⟨row, hrow, x, hx, by simpa using hne⟩
    rw [this] at hnf
    exact Bool.noConfusion hnf
  unfold DiscreteStateSpaceModel.calculate_output
  apply zipWith_add_zeros
  · simp [matVec, hlen]
  · intro y hy
    simp only [matVec, List.mem_map] at hy
    obtain ⟨row, hrow, hdot⟩ := hy
    rw [← hdot]
    exact dot_eq_zero row input (hall row hrow)

/-- C6 witness: a 1-state block with `D = [[0]]` has
`calculate_output = C·state` at input `[5]`, state `[7]`. -/
theorem c6_witness :
    DiscreteStateSpaceModel.calculate_output
        ⟨⟨1, 1, [[1]]⟩, ⟨1, 1, [[1]]⟩, ⟨1, 1, [[2]]⟩, ⟨1, 1, [[0]]⟩⟩ [5] [7] =
      matVec (⟨1, 1, [[2]]⟩ : Mat) [7] :=
  c6_output_no_feedthrough ⟨⟨1, 1, [[1]]⟩, ⟨1, 1, [[1]]⟩, ⟨1, 1, [[2]]⟩, ⟨1, 1, [[0]]⟩⟩
    [5] [7] rfl (by with_unfolding_all decide)

/-!  ## C8 -/

/-- C8 (code bug).  `load`'s matrix loop initialises the accumulator to
`Array2::zeros((record.len(), 0))` — `K` rows and zero columns — and
then appends every record with `push(Axis(0), …)`, which appends a
*row* and therefore requires the record length to equal the column
count `0`.  For the CSV `"1,2\n3,4"` (records `[[1,2],[3,4]]`) the very
first push fails its shape check, so the
`expect("all columns to be of equal length")` call panics instead of
returning the 2×2 matrix `[[1,3],[2,4]]` that the spec describes
(pushing columns with `Axis(1)` would produce it). -/
theorem c8_load_panics : loadMatrix [[1, 2], [3, 4]] = none := by
  with_unfolding_all decide

/-!  ## C5 -/

theorem getD_map_of_lt {α β : Type} (f : α → β) (l : List α) (j : ℕ) (dA : α) (dB : β)
    (h : j < l.length) : (l.map f).getD j dB = f (l.getD j dA) := by
  rw [List.getD_eq_getElem _ _ (by simpa using h), List.getElem_map,
    List.getD_eq_getElem _ _ h]

theorem getD_range (n j d : ℕ) (h : j < n) : (List.range n).getD j d = j := by
  rw [List.getD_eq_getElem _ _ (by simpa using h), List.getElem_range]

theorem getD_drop_one (l : List ℚ) (j : ℕ) : (l.drop 1).getD j 0 = l.getD (j + 1) 0 := by
  cases l <;> simp [List.getD]

theorem addInto_getD (xs ys : List ℚ) (j : ℕ) (hx : j < xs.length) (hy : j < ys.length) :
    (addInto xs ys).getD j 0 = xs.getD j 0 + ys.getD j 0 := by
  induction xs generalizing ys j with
  | nil => simp at hx
  | cons x xs ih =>
    cases ys with
    | nil => simp at hy
    | cons y ys =>
      cases j with
      | zero => simp [addInto]
      | succ j =>
        simp only [addInto, List.getD_cons_succ]
        exact ih ys j (by simpa using hx) (by simpa using hy)

/-- C5 (confirmed).  For a transfer function with equal-length
coefficient vectors (the construction invariant), `den[0] = d0 ≠ 0` and
`order = len(den) - 1 > 0`, the conversion returns the
controllable-canonical state-space: `A` is `order × order` with row 0
equal to `[-den[1]/d0, …, -den[order]/d0]` and `A[i, i-1] = 1` for
`i ≥ 1` (all other entries of those rows zero), `B` is `order × 1` with
`B[0,0] = 1` and zeros below, `C` is `1 × order` with
`C[0,j] = num[j+1]/d0 - den[j+1]·n0/d0²`, and `D = [[n0/d0]]`. -/
theorem c5_convert_canonical (tf : DiscreteTransferFunction)
    (hlen : tf.num.length = tf.den.length)
    (hd0 : tf.den.getD 0 0 ≠ 0)
    (horder : 0 < tf.den.length - 1) :
    ∃ ss, tf.convert_to_state_space = some ss ∧
      ss.a.nrows = tf.den.length - 1 ∧ ss.a.ncols = tf.den.length - 1 ∧
      (∀ j < tf.den.length - 1,
        ss.a.get 0 j = -(tf.den.getD (j + 1) 0) / tf.den.getD 0 0) ∧
      (∀ i j, i < tf.den.length - 1 → j < tf.den.length - 1 → 0 < i →
        ss.a.get i j = if j = i - 1 then 1 else 0) ∧
      ss.b.nrows = tf.den.length - 1 ∧ ss.b.ncols = 1 ∧
      (∀ i < tf.den.length - 1, ss.b.get i 0 = if i = 0 then 1 else 0) ∧
      ss.c.nrows = 1 ∧ ss.c.ncols = tf.den.length - 1 ∧
      (∀ j < tf.den.length - 1,
        ss.c.get 0 j = tf.num.getD (j + 1) 0 / tf.den.getD 0 0 -
          tf.den.getD (j + 1) 0 * tf.num.getD 0 0 / tf.den.getD 0 0 ^ 2) ∧
      ss.d = ⟨1, 1, [[tf.num.getD 0 0 / tf.den.getD 0 0]]⟩ := by
  simp only [DiscreteTransferFunction.convert_to_state_space]
  rw [if_neg hd0]
  refine ⟨_, rfl, rfl, rfl, ?_, ?_, rfl, rfl, ?_, rfl, rfl, ?_, rfl⟩
  · -- row 0 of A
    intro j hj
    simp only [Mat.get]
    rw [getD_map_of_lt _ _ _ 0 _ (by simpa using horder), getD_range _ _ _ horder]
    simp only [if_true]
    rw [getD_map_of_lt _ _ _ 0 _ (by simpa using hj), getD_drop_one]
  · -- rows 1.. of A
    intro i j hi hj hpos
    simp only [Mat.get]
    rw [getD_map_of_lt _ _ _ 0 _ (by simpa using hi), getD_range _ _ _ hi,
      if_neg (Nat.pos_iff_ne_zero.mp hpos),
      getD_map_of_lt _ _ _ 0 _ (by simpa using hj), getD_range _ _ _ hj]
  · -- B
    intro i hi
    simp only [Mat.get]
    rw [getD_map_of_lt _ _ _ 0 _ (by simpa using hi), getD_range _ _ _ hi]
    simp [List.getD]
  · -- C
    intro j hj
    simp only [Mat.get, List.getD_cons_zero]
    rw [addInto_getD _ _ _ (by simpa using hj) (by simp; omega),
      getD_map_of_lt _ _ _ 0 _ (by simpa using hj),
      getD_map_of_lt _ _ _ 0 _ (by simp; omega),
      getD_drop_one, getD_drop_one]
    ring

/-- C5 witness: the conversion of `num = [1, 3/2, 2]`,
`den = [3/2, 1/2, 3/4]` (the source's own unit-test instance) satisfies
the canonical-form description. -/
theorem c5_witness :
    ∃ ss,
      DiscreteTransferFunction.convert_to_state_space ⟨[1, 3/2, 2], [3/2, 1/2, 3/4]⟩ =
        some ss ∧
      ss.a.nrows = ([3/2, 1/2, 3/4] : List ℚ).length - 1 ∧
      ss.a.ncols = ([3/2, 1/2, 3/4] : List ℚ).length - 1 ∧
      (∀ j < ([3/2, 1/2, 3/4] : List ℚ).length - 1,
        ss.a.get 0 j = -(([3/2, 1/2, 3/4] : List ℚ).getD (j + 1) 0) /
          ([3/2, 1/2, 3/4] : List ℚ).getD 0 0) ∧
      (∀ i j, i < ([3/2, 1/2, 3/4] : List ℚ).length - 1 →
        j < ([3/2, 1/2, 3/4] : List ℚ).length - 1 → 0 < i →
        ss.a.get i j = if j = i - 1 then 1 else 0) ∧
      ss.b.nrows = ([3/2, 1/2, 3/4] : List ℚ).length - 1 ∧ ss.b.ncols = 1 ∧
      (∀ i < ([3/2, 1/2, 3/4] : List ℚ).length - 1,
        ss.b.get i 0 = if i = 0 then 1 else 0) ∧
      ss.c.nrows = 1 ∧ ss.c.ncols = ([3/2, 1/2, 3/4] : List ℚ).length - 1 ∧
      (∀ j < ([3/2, 1/2, 3/4] : List ℚ).length - 1,
        ss.c.get 0 j = ([1, 3/2, 2] : List ℚ).getD (j + 1) 0 /
            ([3/2, 1/2, 3/4] : List ℚ).getD 0 0 -
          ([3/2, 1/2, 3/4] : List ℚ).getD (j + 1) 0 * ([1, 3/2, 2] : List ℚ).getD 0 0 /
            ([3/2, 1/2, 3/4] : List ℚ).getD 0 0 ^ 2) ∧
      ss.d = ⟨1, 1, [[([1, 3/2, 2] : List ℚ).getD 0 0 /
        ([3/2, 1/2, 3/4] : List ℚ).getD 0 0]]⟩ :=
  c5_convert_canonical ⟨[1, 3/2, 2], [3/2, 1/2, 3/4]⟩ rfl
    (by with_unfolding_all decide) (by with_unfolding_all decide)

/-!  ## C9 -/

/-- The expression evaluated by a statement. -/
def stmtExpression : Statement → Expression
  | .expressionStatement e => e
  | .assign _ e => e

theorem executeStmts_append (rf : ReadFile) (xs ys : List Statement) (env : EnvMap) :
    executeStmts rf (xs ++ ys) env =
      ((executeStmts rf xs env).1 ++ (executeStmts rf ys (executeStmts rf xs env).2).1,
       (executeStmts rf ys (executeStmts rf xs env).2).2) := by
  induction xs generalizing env with
  | nil => simp [executeStmts]
  | cons stmt rest ih =>
    cases stmt with
    | expressionStatement e =>
      simp only [List.cons_append, executeStmts]
      cases eval e env rf with
      | ok v => simp [ih]
      | error er => simp [ih]
    | assign id e =>
      simp only [List.cons_append, executeStmts]
      cases eval e env rf with
      | ok v => simp [ih]
      | error er => simp [ih]

/-- C9 (confirmed).  For any program split as `s1 ++ stmt :: s2` where
the statement's expression fails to evaluate (in the environment
reached after `s1`): the error is appended to the output list at that
position as an `Output.err`; the environment is unchanged (for an
assignment nothing is bound: the remaining statements run in the
environment from before the failing statement); and the remaining
statements `s2` are still evaluated. -/
theorem c9_error_isolation (rf : ReadFile) (s1 s2 : List Statement) (stmt : Statement)
    (er : InterpError)
    (h : eval (stmtExpression stmt) (executeStmts rf s1 defaultValues).2 rf = .error er) :
    execute ⟨s1 ++ stmt :: s2⟩ rf =
      (executeStmts rf s1 defaultValues).1 ++
        Output.err er :: (executeStmts rf s2 (executeStmts rf s1 defaultValues).2).1 := by
  unfold execute
  rw [executeStmts_append]
  cases stmt with
  | expressionStatement e =>
    simp only [stmtExpression] at h
    simp [executeStmts, h]
  | assign id e =>
    simp only [stmtExpression] at h
    simp [executeStmts, h]

/-- C9 witness: `x = nope; 1` — the failing assignment emits
`NullDeref("nope")`, binds nothing, and the following statement still
runs. -/
theorem c9_witness :
    execute ⟨[] ++ Statement.assign "x" (Expression.identifier "nope") ::
        [Statement.expressionStatement (Expression.floatLiteral 1)]⟩ rf0 =
      (executeStmts rf0 [] defaultValues).1 ++
        Output.err (InterpError.nullDeref "nope") ::
          (executeStmts rf0 [Statement.expressionStatement (Expression.floatLiteral 1)]
            (executeStmts rf0 [] defaultValues).2).1 :=
  c9_error_isolation rf0 [] [Statement.expressionStatement (Expression.floatLiteral 1)]
    (Statement.assign "x" (Expression.identifier "nope")) (InterpError.nullDeref "nope")
    (by with_unfolding_all rfl)

/-!  ## C10 -/

theorem collectSystemItems_append (values : EnvMap) (xs ys : List SystemItem) :
    collectSystemItems values (xs ++ ys) =
      match collectSystemItems values xs with
      | .error e => .error e
      | .ok d1 =>
        match collectSystemItems values ys with
        | .error e => .error e
        | .ok d2 => .ok (d1 ++ d2) := by
  induction xs with
  | nil =>
    cases h : collectSystemItems values ys <;> simp [collectSystemItems, h]
  | cons item rest ih =>
    simp only [List.cons_append, collectSystemItems, List.append_eq]
    cases hitem :
        (match item.rhs with
         | .difference input1_name input2_name =>
           Except.ok ([input1_name, input2_name], SystemBlock.difference)
         | .system system_name input_name =>
           match values.lookup system_name with
           | none => .error (InterpError.nullDeref system_name)
           | some v =>
             match v.get_system with
             | .error e => .error e
             | .ok blk => .ok ([input_name], blk)) with
    | error e => rfl
    | ok p =>
      obtain ⟨inputs, blk⟩ := p
      rw [ih]
      cases collectSystemItems values rest with
      | error e => rfl
      | ok d1 =>
        cases collectSystemItems values ys with
        | error e => rfl
        | ok d2 => rfl

/-- C10 (confirmed).  Inside a `system { … }` expression, a component
reference `block(in)` whose block name is bound to a CompoundSystem
value makes evaluation of the whole expression fail with `TypeError`
(provided the items before it resolve, so the reference is reached):
compound systems cannot be nested as component blocks. -/
theorem c10_nested_compound_rejected (values : EnvMap) (rf : ReadFile)
    (pre post : List SystemItem) (outName blockName inputName : String)
    (cs : CompoundSystem) (defs : List CompoundSystemComponentDefinition)
    (hpre : collectSystemItems values pre = .ok defs)
    (hlook : values.lookup blockName = some (.compoundSystem cs)) :
    eval (.system (pre ++ ⟨outName, .system blockName inputName⟩ :: post)) values rf =
      .error .typeError := by
  have hitem :
      collectSystemItems values (⟨outName, .system blockName inputName⟩ :: post) =
        .error .typeError := by
    simp only [collectSystemItems, hlook, Value.get_system]
  have hall :
      collectSystemItems values
          (pre ++ ⟨outName, .system blockName inputName⟩ :: post) = .error .typeError := by
    rw [collectSystemItems_append, hpre, hitem]
  simp only [eval, hall]

/-- C10 witness: with `sys0` bound to an (empty) compound system, the
expression `system { y = sys0(u) }` evaluates to `TypeError`. -/
theorem c10_witness :
    eval (.system ([] ++ (⟨"y", SystemItemRhs.system "sys0" "u"⟩ : SystemItem) :: []))
      (("sys0", Value.compoundSystem ⟨[]⟩) :: defaultValues) rf0 = .error .typeError :=
  c10_nested_compound_rejected (("sys0", Value.compoundSystem ⟨[]⟩) :: defaultValues) rf0
    [] [] "y" "sys0" "u" ⟨[]⟩ [] rfl (by with_unfolding_all rfl)

/-!  ## C3 -/

instance {ε α : Type} [DecidableEq ε] [DecidableEq α] : DecidableEq (Except ε α) :=
  fun a b =>
    match a, b with
    | .ok x, .ok y => if h : x = y then isTrue (by rw [h]) else isFalse (by simp [h])
    | .error x, .error y => if h : x = y then isTrue (by rw [h]) else isFalse (by simp [h])
    | .ok _, .error _ => isFalse (by simp)
    | .error _, .ok _ => isFalse (by simp)

theorem insertNames_ok (defs : List CompoundSystemComponentDefinition) :
    ∀ (i : ℕ) (table : List (String × Signal)),
      (∀ c ∈ defs, table.lookup c.name = none) →
      (defs.map CompoundSystemComponentDefinition.name).Nodup →
      ∃ t, insertNames defs i table = .ok t := by
  induction defs with
  | nil => intro i table _ _; exact ⟨table, rfl⟩
  | cons c rest ih =>
    intro i table hnone hnodup
    have hc : table.lookup c.name = none := hnone c (by simp)
    have hred : insertNames (c :: rest) i table =
        insertNames rest (i + 1) ((c.name, Signal.componentOutput i) :: table) := by
      simp [insertNames, hc]
    rw [hred]
    apply ih
    · intro c' hc'
      have hne : c'.name ≠ c.name := by
        intro heq
        have : c.name ∈ rest.map CompoundSystemComponentDefinition.name :=
          List.mem_map.mpr ⟨c', hc', heq⟩
        exact (List.nodup_cons.mp (by simpa using hnodup)).1 this
      have hbeq : (c'.name == c.name) = false := beq_eq_false_iff_ne.mpr hne
      rw [List.lookup_cons, hbeq]
      exact hnone c' (by simp [hc'])
    · exact (List.nodup_cons.mp (by simpa using hnodup)).2

theorem insertNames_lookup (defs : List CompoundSystemComponentDefinition) :
    ∀ (i : ℕ) (table t : List (String × Signal)),
      insertNames defs i table = .ok t →
      ∀ s, (t.lookup s).isSome ↔
        ((table.lookup s).isSome ∨ s ∈ defs.map CompoundSystemComponentDefinition.name) := by
  induction defs with
  | nil =>
    intro i table t h s
    simp only [insertNames] at h
    cases h
    simp
  | cons c rest ih =>
    intro i table t h s
    simp only [insertNames] at h
    by_cases hc : ((table.lookup c.name).isSome : Prop)
    · rw [if_pos hc] at h
      cases h
    · rw [if_neg hc] at h
      have := ih (i + 1) ((c.name, Signal.componentOutput i) :: table) t h s
      rw [this]
      by_cases hs : s = c.name
      · subst hs
        simp
      · have hbeq : (s == c.name) = false := beq_eq_false_iff_ne.mpr hs
        rw [List.lookup_cons, hbeq]
        simp only [List.map_cons, List.mem_cons]
        constructor
        · rintro (h1 | h2)
          · exact Or.inl h1
          · exact Or.inr (Or.inr h2)
        · rintro (h1 | h2 | h3)
          · exact Or.inl h1
          · exact absurd h2 hs
          · exact Or.inr h3

theorem resolveInputs_err_form (table : List (String × Signal)) :
    ∀ (inputs : List String) (e : String), resolveInputs table inputs = .error e →
      ∃ s, table.lookup s = none ∧ e = "signal " ++ s ++ " does not exist" := by
  intro inputs
  induction inputs with
  | nil => intro e h; simp [resolveInputs] at h
  | cons s rest ih =>
    intro e h
    simp only [resolveInputs] at h
    cases hs : table.lookup s with
    | none =>
      rw [hs] at h
      cases h
      exact ⟨s, hs, rfl⟩
    | some sig =>
      rw [hs] at h
      cases hr : resolveInputs table rest with
      | error e2 => rw [hr] at h; cases h; exact ih _ hr
      | ok sigs => rw [hr] at h; cases h

theorem resolveInputs_ok_lookup (table : List (String × Signal)) :
    ∀ (inputs : List String) (sigs : List Signal), resolveInputs table inputs = .ok sigs →
      ∀ s ∈ inputs, (table.lookup s).isSome := by
  intro inputs
  induction inputs with
  | nil => intro sigs _ s hs; simp at hs
  | cons s0 rest ih =>
    intro sigs h s hs
    simp only [resolveInputs] at h
    cases hl : table.lookup s0 with
    | none => rw [hl] at h; cases h
    | some sig =>
      rw [hl] at h
      cases hr : resolveInputs table rest with
      | error e => rw [hr] at h; cases h
      | ok sigs2 =>
        rcases List.mem_cons.mp hs with heq | hmem
        · rw [heq, hl]; rfl
        · exact ih sigs2 hr s hmem

theorem resolveComponents_err (table : List (String × Signal)) :
    ∀ (defs : List CompoundSystemComponentDefinition),
      (∃ c ∈ defs, ∃ s ∈ c.reads_input_from, table.lookup s = none) →
      ∃ s, table.lookup s = none ∧
        resolveComponents table defs = .error ("signal " ++ s ++ " does not exist") := by
  intro defs
  induction defs with
  | nil => intro h; simp at h
  | cons c rest ih =>
    intro h
    simp only [resolveComponents]
    cases hri : resolveInputs table c.reads_input_from with
    | error e =>
      obtain ⟨s, hs, he⟩ := resolveInputs_err_form table c.reads_input_from e hri
      exact ⟨s, hs, by rw [he]⟩
    | ok sigs =>
      have hrest : ∃ c2 ∈ rest, ∃ s ∈ c2.reads_input_from, table.lookup s = none := by
        obtain ⟨c2, hc2, s, hsin, hsl⟩ := h
        rcases List.mem_cons.mp hc2 with heq | hmem
        · exfalso
          have := resolveInputs_ok_lookup table c.reads_input_from sigs hri s (heq ▸ hsin)
          rw [hsl] at this
          cases this
        · exact ⟨c2, hmem, s, hsin, hsl⟩
      obtain ⟨s, hs, hres⟩ := ih hrest
      refine ⟨s, hs, ?_⟩
      rw [hres]

/-- C3 (amended).  With pairwise-distinct component names, none equal
to the reserved `u`: whenever some component's input name is neither
`u` nor the output name of *any* component in the list (earlier or
later — resolution happens after all names are registered, so
forward/feedback references to later components are accepted),
`Build(definitions)` returns the error `"signal <name> does not exist"`
for such a name. -/
theorem c3_unknown_signal (defs : List CompoundSystemComponentDefinition)
    (hnodup : (defs.map CompoundSystemComponentDefinition.name).Nodup)
    (hu : ∀ c ∈ defs, c.name ≠ "u")
    (hmiss : ∃ c ∈ defs, ∃ s ∈ c.reads_input_from, s ≠ "u" ∧
      s ∉ defs.map CompoundSystemComponentDefinition.name) :
    ∃ s, s ≠ "u" ∧ s ∉ defs.map CompoundSystemComponentDefinition.name ∧
      CompoundSystem.new defs = .error ("signal " ++ s ++ " does not exist") := by
  have hbase : ∀ c ∈ defs, ([("u", Signal.systemInput)].lookup c.name) = none := by
    intro c hc
    rw [List.lookup_cons, beq_eq_false_iff_ne.mpr (hu c hc)]
    rfl
  obtain ⟨t, ht⟩ := insertNames_ok defs 0 [("u", Signal.systemInput)] hbase hnodup
  have hchar := insertNames_lookup defs 0 [("u", Signal.systemInput)] t ht
  have hcharu : ∀ s, (t.lookup s).isSome ↔
      (s = "u" ∨ s ∈ defs.map CompoundSystemComponentDefinition.name) := by
    intro s
    rw [hchar s]
    by_cases hs : s = "u"
    · subst hs
      simp
    · rw [List.lookup_cons, beq_eq_false_iff_ne.mpr hs]
      simp [hs]
  have hmiss2 : ∃ c ∈ defs, ∃ s ∈ c.reads_input_from, t.lookup s = none := by
    obtain ⟨c, hc, s, hsin, hsu, hsn⟩ := hmiss
    refine ⟨c, hc, s, hsin, ?_⟩
    have hns : ¬((t.lookup s).isSome : Prop) := by
      rw [hcharu s]
      tauto
    exact Option.not_isSome_iff_eq_none.mp hns
  obtain ⟨s, hsl, hres⟩ := resolveComponents_err t defs hmiss2
  have hsu : s ≠ "u" ∧ s ∉ defs.map CompoundSystemComponentDefinition.name := by
    have hns : ¬((t.lookup s).isSome : Prop) := by rw [hsl]; simp
    rw [hcharu s] at hns
    tauto
  refine ⟨s, hsu.1, hsu.2, ?_⟩
  simp only [CompoundSystem.new, ht, hres]


/-- C3 (counterexample).  The definition list
`[e reads y; y reads u]` wires `e` to the *later*-defined signal `y`,
and `Build` succeeds (resolving `y` to `ComponentOutput(1)`) instead of
returning `"signal y does not exist"` as the claim requires: all output
names are registered before any input is resolved. -/
theorem c3_counterexample :
    CompoundSystem.new
        [⟨.difference, "e", ["y"]⟩, ⟨.difference, "y", ["u"]⟩] =
      .ok ⟨[⟨.difference, "e", [.componentOutput 1]⟩,
            ⟨.difference, "y", [.systemInput]⟩]⟩ ∧
    CompoundSystem.new [⟨.difference, "e", ["y"]⟩, ⟨.difference, "y", ["u"]⟩] ≠
      .error "signal y does not exist" := by
  with_unfolding_all decide

/-- C3 witness: a single component reading the undefined signal `x`. -/
theorem c3_witness :
    ∃ s, s ≠ "u" ∧
      s ∉ ([⟨SystemBlock.difference, "a", ["x"]⟩] :
            List CompoundSystemComponentDefinition).map
          CompoundSystemComponentDefinition.name ∧
      CompoundSystem.new [⟨SystemBlock.difference, "a", ["x"]⟩] =
        .error ("signal " ++ s ++ " does not exist") :=
  c3_unknown_signal [⟨SystemBlock.difference, "a", ["x"]⟩]
    (by simp) (by simp)
    ⟨⟨SystemBlock.difference, "a", ["x"]⟩, by simp, "x", by simp, by simp, by simp⟩

/-!  ## C7 -/

/-- The slice a signal reference denotes inside a planned simulation
(`u`'s slot or the producing block's output slice). -/
def Simulation.signalSlice (sim : Simulation) (s : Signal) : Slice :=
  resolveSignalSlice sim.input_signal_mapping sim.blocks s

/-- The two-element strided slice built for a `Difference` block's two
size-1 inputs selects exactly the two scalars *in the order the user
named them*: for a positive stride it starts at the lower position, and
for a negative stride `ndarray` traverses the range in reverse,
starting from the higher position — in both cases the view is
`[p1, p2]`. -/
theorem sliceIndices_pair (p1 p2 : ℕ) (h : p1 ≠ p2) :
    sliceIndices ⟨min p1 p2, max p1 p2 + 1, (p2 : ℤ) - (p1 : ℤ)⟩ = [p1, p2] := by
  rcases Nat.lt_or_ge p1 p2 with hlt | hge
  · have hmin : min p1 p2 = p1 := Nat.min_eq_left hlt.le
    have hmax : max p1 p2 = p2 := Nat.max_eq_right hlt.le
    have hnabs : ((p2 : ℤ) - (p1 : ℤ)).natAbs = p2 - p1 := by omega
    simp only [sliceIndices, hmin, hmax, hnabs]
    rw [if_neg (show ¬(p2 + 1 - p1 = 0) by omega),
      if_pos (show (0 : ℤ) ≤ (p2 : ℤ) - (p1 : ℤ) by omega),
      show p2 + 1 - p1 - 1 = p2 - p1 by omega, Nat.div_self (show 0 < p2 - p1 by omega),
      show List.range (1 + 1) = [0, 1] by decide]
    simp only [List.map_cons, List.map_nil]
    rw [show p1 + 0 * (p2 - p1) = p1 by omega, show p1 + 1 * (p2 - p1) = p2 by omega]
  · have hgt : p2 < p1 := by omega
    have hmin : min p1 p2 = p2 := Nat.min_eq_right hgt.le
    have hmax : max p1 p2 = p1 := Nat.max_eq_left hgt.le
    have hnabs : ((p2 : ℤ) - (p1 : ℤ)).natAbs = p1 - p2 := by omega
    simp only [sliceIndices, hmin, hmax, hnabs]
    rw [if_neg (show ¬(p1 + 1 - p2 = 0) by omega),
      if_neg (show ¬((0 : ℤ) ≤ (p2 : ℤ) - (p1 : ℤ)) by omega),
      show p1 + 1 - p2 - 1 = p1 - p2 by omega, Nat.div_self (show 0 < p1 - p2 by omega),
      show List.range (1 + 1) = [0, 1] by decide]
    simp only [List.map_cons, List.map_nil]
    rw [show p1 + 1 - 1 - 0 * (p1 - p2) = p1 by omega,
      show p1 + 1 - 1 - 1 * (p1 - p2) = p2 by omega]

theorem buildBlocks_get :
    ∀ (comps : List CompoundSystemComponent) (sig st : ℕ) (bs : List SimulationBlock)
      (sig2 st2 k : ℕ) (comp : CompoundSystemComponent),
      buildBlocks comps sig st = some (bs, sig2, st2) →
      comps.get? k = some comp →
      ∃ exe b, comp.block.toExecutable = some exe ∧ bs.get? k = some b ∧
        b.executable = exe ∧
        b.output_signal_mapping.step = 1 ∧
        b.output_signal_mapping.stop = b.output_signal_mapping.start + exe.output_size ∧
        b.state_mapping.step = 1 ∧
        b.state_mapping.stop = b.state_mapping.start + exe.state_size := by
  intro comps
  induction comps with
  | nil => intro _ _ _ _ _ k comp _ hk; simp at hk
  | cons c rest ih =>
    intro sig st bs sig2 st2 k comp h hk
    cases hexe : c.block.toExecutable with
    | none => simp only [buildBlocks, hexe] at h; cases h
    | some exe =>
      simp only [buildBlocks, hexe] at h
      cases hrest : buildBlocks rest (sig + exe.output_size) (st + exe.state_size) with
      | none => simp only [hrest] at h; cases h
      | some triple =>
        obtain ⟨blocks, sigf, stf⟩ := triple
        simp only [hrest] at h
        cases h
        cases k with
        | zero =>
          cases hk
          exact ⟨exe, _, hexe, rfl, rfl, rfl, rfl, rfl, rfl⟩
        | succ k => exact ih _ _ _ _ _ k comp hrest (by simpa using hk)

theorem assignInputs_get :
    ∀ (im : Slice) (allB bs : List SimulationBlock) (cs : List CompoundSystemComponent)
      (out : List SimulationBlock),
      assignInputs im allB bs cs = some out →
      ∀ (k : ℕ) (b : SimulationBlock) (c : CompoundSystemComponent),
        bs.get? k = some b → cs.get? k = some c →
        ∃ sl, computeInputMapping im allB c.reads_input_from = some sl ∧
          out.get? k = some { b with input_signal_mapping := sl } := by
  intro im allB bs
  induction bs with
  | nil => intro cs out _ k b c hb _; simp at hb
  | cons b0 bs ih =>
    intro cs out h k b c hb hc
    cases cs with
    | nil => simp at hc
    | cons c0 cs =>
      cases hsl : computeInputMapping im allB c0.reads_input_from with
      | none => simp only [assignInputs, hsl] at h; cases h
      | some sl =>
        simp only [assignInputs, hsl] at h
        cases hrest : assignInputs im allB bs cs with
        | none => simp only [hrest] at h; cases h
        | some rest =>
          simp only [hrest] at h
          cases h
          cases k with
          | zero => cases hb; cases hc; exact ⟨sl, hsl, rfl⟩
          | succ k => exact ih cs rest hrest k b c (by simpa using hb) (by simpa using hc)

theorem assignInputs_preserves :
    ∀ (im : Slice) (allB bs : List SimulationBlock) (cs : List CompoundSystemComponent)
      (out : List SimulationBlock),
      assignInputs im allB bs cs = some out →
      ∀ k, (out.get? k).map SimulationBlock.output_signal_mapping =
        (bs.get? k).map SimulationBlock.output_signal_mapping := by
  intro im allB bs
  induction bs with
  | nil =>
    intro cs out h k
    cases cs with
    | nil => simp only [assignInputs] at h; cases h; rfl
    | cons c0 cs => simp only [assignInputs] at h; cases h
  | cons b0 bs ih =>
    intro cs out h k
    cases cs with
    | nil => simp only [assignInputs] at h; cases h
    | cons c0 cs =>
      cases hsl : computeInputMapping im allB c0.reads_input_from with
      | none => simp only [assignInputs, hsl] at h; cases h
      | some sl =>
        simp only [assignInputs, hsl] at h
        cases hrest : assignInputs im allB bs cs with
        | none => simp only [hrest] at h; cases h
        | some rest =>
          simp only [hrest] at h
          cases h
          cases k with
          | zero => rfl
          | succ k => simpa using ih cs rest hrest k

theorem resolveSignalSlice_congr (im : Slice) (xs ys : List SimulationBlock)
    (hpres : ∀ k, (xs.get? k).map SimulationBlock.output_signal_mapping =
      (ys.get? k).map SimulationBlock.output_signal_mapping) :
    ∀ s, resolveSignalSlice im xs s = resolveSignalSlice im ys s := by
  intro s
  cases s with
  | systemInput => rfl
  | componentOutput i =>
    simp only [resolveSignalSlice]
    rw [hpres i]

/-- The fixed executable block instantiated for `Difference`:
`A : 0×0`, `B : 0×2`, `C : 1×0`, `D = [[1, -1]]`. -/
def differenceModel : DiscreteStateSpaceModel :=
  ⟨Mat.zeros 0 0, Mat.zeros 0 2, Mat.zeros 1 0, ⟨1, 2, [[1, -1]]⟩⟩

theorem toExecutable_difference :
    SystemBlock.toExecutable SystemBlock.difference = some differenceModel := by
  with_unfolding_all rfl

theorem differenceModel_output (x y : ℚ) (st : List ℚ) :
    differenceModel.calculate_output [x, y] st = [x - y] := by
  simp [differenceModel, DiscreteStateSpaceModel.calculate_output, matVec, dot, Mat.zeros]
  ring

/-- C7 (confirmed).  In any planned simulation, a `Difference`
component whose two inputs resolve to distinct size-1 signals computes,
at every execution of its schedule step and for every content of the
signal and state buffers, exactly
`(value of the first-named input) − (value of the second-named input)`
into its output slice — regardless of whether the first-named input
lies before or after the second-named one in the flat signal buffer
(the two-element input view lists the scalars in the user's order: the
stride is negative when the first-named signal sits later in the
buffer, and `ndarray` then traverses the range in reverse). -/
theorem c7_difference_user_order (cs : CompoundSystem) (sim : Simulation) (k : ℕ)
    (comp : CompoundSystemComponent) (s1 s2 : Signal)
    (hsim : Simulation.new cs = some sim)
    (hcomp : cs.components.get? k = some comp)
    (hblock : comp.block = SystemBlock.difference)
    (hreads : comp.reads_input_from = [s1, s2])
    (hs1 : (sim.signalSlice s1).stop = (sim.signalSlice s1).start + 1)
    (hs2 : (sim.signalSlice s2).stop = (sim.signalSlice s2).start + 1)
    (hne : (sim.signalSlice s1).start ≠ (sim.signalSlice s2).start)
    (signals states : List ℚ) :
    sim.applyStep (signals, states) (ExecutionStep.calculateOutputWithFeedthrough k) =
      (writeSlice signals (sliceIndices (sim.blocks.getD k default).output_signal_mapping)
        [signals.getD (sim.signalSlice s1).start 0 -
          signals.getD (sim.signalSlice s2).start 0],
       states) := by
  cases hb : buildBlocks cs.components 1 0 with
  | none => simp only [Simulation.new, hb] at hsim; cases hsim
  | some triple =>
    obtain ⟨blocks0, ss, sts⟩ := triple
    cases ha : assignInputs ⟨0, 1, 1⟩ blocks0 blocks0 cs.components with
    | none => simp only [Simulation.new, hb, ha] at hsim; cases hsim
    | some out =>
      simp only [Simulation.new, hb, ha] at hsim
      cases hsim
      obtain ⟨exe, b0, hexe, hb0, hbexe, _, _, _, _⟩ :=
        buildBlocks_get cs.components 1 0 blocks0 ss sts k comp hb hcomp
      rw [hblock, toExecutable_difference] at hexe
      cases hexe
      obtain ⟨sl, hslc, hout⟩ :=
        assignInputs_get ⟨0, 1, 1⟩ blocks0 blocks0 cs.components out ha k b0 comp hb0 hcomp
      have hpres := assignInputs_preserves ⟨0, 1, 1⟩ blocks0 blocks0 cs.components out ha
      have hcongr := resolveSignalSlice_congr ⟨0, 1, 1⟩ out blocks0 hpres
      simp only [Simulation.signalSlice] at hs1 hs2 hne ⊢
      rw [hcongr s1] at hs1 hne ⊢
      rw [hcongr s2] at hs2 hne ⊢
      set r1 := resolveSignalSlice ⟨0, 1, 1⟩ blocks0 s1 with hr1def
      set r2 := resolveSignalSlice ⟨0, 1, 1⟩ blocks0 s2 with hr2def
      rw [hreads] at hslc
      simp only [computeInputMapping, ← hr1def, ← hr2def] at hslc
      rw [if_neg (by push_neg; exact ⟨by omega, by omega⟩)] at hslc
      cases hslc
      have hgetd : List.getD out k default = { b0 with input_signal_mapping :=
          ⟨min r1.start r2.start, max r1.start r2.start + 1,
            (r2.start : ℤ) - (r1.start : ℤ)⟩ } := by
        simp only [List.getD_eq_getElem?_getD, ← List.get?_eq_getElem?, hout, Option.getD_some]
      simp only [Simulation.applyStep, hgetd]
      rw [sliceIndices_pair r1.start r2.start hne]
      simp only [readSlice, List.map_cons, List.map_nil, hbexe]
      rw [differenceModel_output]

/-- A pure-gain SISO block (`D = [[5]]`, no state) used by the C7
witness. -/
def gain5 : DiscreteStateSpaceModel :=
  ⟨Mat.zeros 0 0, Mat.zeros 0 1, Mat.zeros 1 0, ⟨1, 1, [[5]]⟩⟩

/-- Witness compound system: `y = gain5(u); e = y - u`.  The
first-named input of the `Difference` (`y`, buffer position 1) lies
*after* the second-named (`u`, position 0), so the input stride is
negative. -/
def c7cs : CompoundSystem :=
  ⟨[⟨.stateSpace gain5, "y", [.systemInput]⟩,
    ⟨.difference, "e", [.componentOutput 0, .systemInput]⟩]⟩

/-- The plan `Simulation::new` produces for `c7cs`. -/
def c7sim : Simulation :=
  ⟨[⟨gain5, ⟨0, 1, 1⟩, ⟨0, 0, 1⟩, ⟨1, 2, 1⟩⟩,
    ⟨differenceModel, ⟨0, 2, -1⟩, ⟨0, 0, 1⟩, ⟨2, 3, 1⟩⟩],
   [.calculateOutputWithFeedthrough 0, .calculateOutputWithFeedthrough 1],
   ⟨0, 1, 1⟩, 2, 0, 3⟩

/-- C7 witness: with buffer `[3, 5, 9]` the difference block `y - u`
(first-named input at position 1, second at position 0) writes
`5 - 3 = 2`, i.e. the user's order, not buffer order. -/
theorem c7_witness :
    Simulation.new c7cs = some c7sim ∧
    c7sim.applyStep ([3, 5, 9], []) (ExecutionStep.calculateOutputWithFeedthrough 1) =
      (writeSlice [3, 5, 9]
        (sliceIndices (c7sim.blocks.getD 1 default).output_signal_mapping)
        [([3, 5, 9] : List ℚ).getD (c7sim.signalSlice (Signal.componentOutput 0)).start 0 -
         ([3, 5, 9] : List ℚ).getD (c7sim.signalSlice Signal.systemInput).start 0],
       ([] : List ℚ)) :=
  ⟨by with_unfolding_all rfl,
   c7_difference_user_order c7cs c7sim 1
     ⟨.difference, "e", [.componentOutput 0, .systemInput]⟩
     (.componentOutput 0) .systemInput (by with_unfolding_all rfl)
     (by with_unfolding_all rfl) rfl rfl (by with_unfolding_all rfl)
     (by with_unfolding_all rfl) (by with_unfolding_all decide) [3, 5, 9] []⟩

/-!  ## C4 -/

/-- The items of the expression `system { e = u - y; y = plant(e) }`. -/
def c4items : List SystemItem :=
  [⟨"e", .difference "u" "y"⟩, ⟨"y", .system "plant" "e"⟩]

/-- The compound system those items build around a given plant block:
`e` reads `u` and the *later*-defined `y`; `y` reads `e`. -/
def c4cs (blk : SystemBlock) : CompoundSystem :=
  ⟨[⟨.difference, "e", [.systemInput, .componentOutput 1]⟩,
    ⟨blk, "y", [.componentOutput 0]⟩]⟩

theorem c4_system_eval (values : EnvMap) (rf : ReadFile) (pv : Value) (blk : SystemBlock)
    (hplant : values.lookup "plant" = some pv)
    (hgs : pv.get_system = .ok blk) :
    eval (.system c4items) values rf = .ok (.compoundSystem (c4cs blk)) := by
  have hcollect : collectSystemItems values c4items =
      .ok [⟨.difference, "e", ["u", "y"]⟩, ⟨blk, "y", ["e"]⟩] := by
    simp only [c4items, collectSystemItems, hplant, hgs]
  have hnew : CompoundSystem.new [⟨.difference, "e", ["u", "y"]⟩, ⟨blk, "y", ["e"]⟩] =
      .ok (c4cs blk) := by
    with_unfolding_all rfl
  simp only [eval, hcollect, hnew]

theorem c4_sim_new (blk : SystemBlock) (exe : DiscreteStateSpaceModel)
    (hexe : blk.toExecutable = some exe) (hr : exe.output_size = 1) :
    ∃ sim, Simulation.new (c4cs blk) = some sim := by
  rw [← Option.isSome_iff_exists]
  simp only [Simulation.new, c4cs, buildBlocks, toExecutable_difference, hexe,
    assignInputs, computeInputMapping, resolveSignalSlice, List.get?, hr]
  simp

theorem c4_step_eval (values : EnvMap) (rf : ReadFile) (pv : Value) (blk : SystemBlock)
    (exe : DiscreteStateSpaceModel)
    (hstep : values.lookup "step" = some (.builtInFunction .step))
    (hplant : values.lookup "plant" = some pv)
    (hgs : pv.get_system = .ok blk)
    (hexe : blk.toExecutable = some exe)
    (hr : exe.output_size = 1) :
    (∃ c, eval (.system c4items) values rf = .ok (.compoundSystem c)) ∧
    (∃ m, eval (.functionCall (.identifier "step") [.system c4items]) values rf =
        .ok (.matrix m) ∧ m.nrows = 1 ∧ m.ncols = 36) := by
  have hcollect : collectSystemItems values c4items =
      .ok [⟨.difference, "e", ["u", "y"]⟩, ⟨blk, "y", ["e"]⟩] := by
    simp only [c4items, collectSystemItems, hplant, hgs]
  have hnew : CompoundSystem.new [⟨.difference, "e", ["u", "y"]⟩, ⟨blk, "y", ["e"]⟩] =
      .ok (c4cs blk) := by
    with_unfolding_all rfl
  have hsys := c4_system_eval values rf pv blk hplant hgs
  obtain ⟨sim, hsim⟩ := c4_sim_new blk exe hexe hr
  refine ⟨⟨_, hsys⟩, ⟨1, sim.execute.length, [sim.execute]⟩, ?_, rfl, sim.execute_length⟩
  simp only [eval, hstep, hcollect, hnew, hsim]

/-- C4 (amended).  With `step` bound to its builtin and `plant` bound
to a transfer function (non-empty numerator — the source reads
`num[0]` — and `den[0] ≠ 0`) or to a state-space model *with input
size 1 and output size 1* (as every state-space value created by the
interpreter has; for other sizes the source panics in the planner or in
the matrix products): evaluating `system { e = u - y; y = plant(e) }`
builds a compound system successfully — no name-resolution error even
though `e` reads the later-defined `y` — and applying the `step`
builtin to it returns a 1×36 matrix value without error. -/
theorem c4_feedback_builds (values : EnvMap) (rf : ReadFile) (pv : Value)
    (hstep : values.lookup "step" = some (.builtInFunction .step))
    (hplant : values.lookup "plant" = some pv)
    (hpv : (∃ tf, pv = .transferFunction tf ∧ tf.num ≠ [] ∧ tf.den.getD 0 0 ≠ 0) ∨
           (∃ ss0, pv = .stateSpaceModel ss0 ∧ ss0.input_size = 1 ∧ ss0.output_size = 1)) :
    (∃ c, eval (.system c4items) values rf = .ok (.compoundSystem c)) ∧
    (∃ m, eval (.functionCall (.identifier "step") [.system c4items]) values rf =
        .ok (.matrix m) ∧ m.nrows = 1 ∧ m.ncols = 36) := by
  rcases hpv with ⟨tf, hpv, _, hd0⟩ | ⟨ss0, hpv, _, hr⟩
  · subst hpv
    have hconv : ∃ exe, tf.convert_to_state_space = some exe ∧ exe.output_size = 1 := by
      simp only [DiscreteTransferFunction.convert_to_state_space]
      rw [if_neg hd0]
      exact ⟨_, rfl, rfl⟩
    obtain ⟨exe, hcv, hro⟩ := hconv
    exact c4_step_eval values rf _ (SystemBlock.transferFunction tf) exe hstep hplant rfl
      (by simpa [SystemBlock.toExecutable] using hcv) hro
  · subst hpv
    exact c4_step_eval values rf _ (SystemBlock.stateSpace ss0) ss0 hstep hplant rfl rfl hr

/-- C4 (counterexample).  With `plant` bound to a (perfectly
well-formed, MIMO) state-space model with two outputs, the wired
compound still builds, but `step` does *not* return a matrix: the
planner cannot wire the two-output signal into the `Difference` block
(in the source this is the `"can only subtract two signals of size 1"`
panic; the model surfaces the planning failure as the
`"could not init sim"` error).  The claim's promise for *every*
state-space value is therefore false. -/
theorem c4_counterexample :
    eval (.functionCall (.identifier "step") [.system c4items])
        (("plant", Value.stateSpaceModel
            ⟨Mat.zeros 0 0, Mat.zeros 0 1, Mat.zeros 2 0, Mat.zeros 2 1⟩) :: defaultValues)
        rf0 =
      .error (.other "could not init sim") := by
  with_unfolding_all rfl

/-- C4 witness: `plant = z⁻¹/(1 - 0.5 z⁻¹)` (the padded
`tf([1], [1, -0.5])`). -/
theorem c4_witness :
    (∃ c, eval (.system c4items)
        (("plant", Value.transferFunction ⟨[0, 1], [1, -(1/2)]⟩) :: defaultValues) rf0 =
      .ok (.compoundSystem c)) ∧
    (∃ m, eval (.functionCall (.identifier "step") [.system c4items])
        (("plant", Value.transferFunction ⟨[0, 1], [1, -(1/2)]⟩) :: defaultValues) rf0 =
      .ok (.matrix m) ∧ m.nrows = 1 ∧ m.ncols = 36) :=
  c4_feedback_builds
    (("plant", Value.transferFunction ⟨[0, 1], [1, -(1/2)]⟩) :: defaultValues) rf0
    (Value.transferFunction ⟨[0, 1], [1, -(1/2)]⟩)
    (by with_unfolding_all rfl) (by with_unfolding_all rfl)
    (Or.inl ⟨⟨[0, 1], [1, -(1/2)]⟩, rfl, by simp, by with_unfolding_all decide⟩)
